import Mathlib

/-!
Shallow embedding of the mask-synthesis pipeline of `src/task_2/script_5.py`
(the only repository file with raster/region logic; the other scripts are
simple file enumeration and are out of the claims' scope).

Conventions of the embedding:
* 8-bit image channels are naturals (kept below 256 by construction of the
  inputs; hypotheses state the bound where an operation depends on it).
* a raster buffer (`numpy` array of shape height x width x 3) is a `Canvas`:
  its dimensions plus a total pixel function; all per-pixel statements are
  made at coordinates inside the bounds.
* Python floats are modelled as rationals; `float(s)` parsing is restricted
  to plain signed decimal numerals (the only numeral forms the annotation
  files and the claims use).
* fallible Python code (exceptions) is modelled with `Except String` or
  `Option`; the string carries the kind of error.
-/

namespace Script5

/-- Pixel value: one 3-channel entry of a height x width x 3 `uint8` buffer.
Channel order is the order of the tuple the script uses (BGR, as produced by
`get_color`); the claims only speak of triples, so the order is opaque here. -/
structure Px where
  c0 : Nat
  c1 : Nat
  c2 : Nat
deriving DecidableEq, Repr

/-- Raster buffer: dimensions plus a total pixel function. Statements about a
canvas are made at coordinates `0 <= x < width`, `0 <= y < height`; outside
that range the function value is irrelevant (numpy arrays have no such cells). -/
structure Canvas where
  width : Nat
  height : Nat
  pix : ℤ → ℤ → Px

/-- Zero-initialized canvas: `np.zeros((height, width, 3), np.uint8)`. -/
def zeroCanvas (width height : Nat) : Canvas :=
  ⟨width, height, fun _ _ => ⟨0, 0, 0⟩⟩

/-- Split of a character list at every occurrence of the separator, keeping
empty pieces: the semantics of Python `str.split(sep)` for a one-character
separator (the script only splits on single characters). -/
def splitOnChar (sep : Char) : List Char → List (List Char)
  | [] => [[]]
  | c :: cs =>
    match splitOnChar sep cs with
    | [] => [[c]]
    | grp :: grps => if c = sep then [] :: grp :: grps else (c :: grp) :: grps

/-- Python `str.split(sep)` on strings, via `splitOnChar`. -/
def pySplit (s : String) (sep : Char) : List String :=
  (splitOnChar sep s.toList).map String.mk

/-- Value of a decimal digit, or `none` for any other character. -/
def digitVal? (c : Char) : Option Nat :=
  if '0' ≤ c ∧ c ≤ '9' then some (c.toNat - '0'.toNat) else none

/-- Value of a nonempty all-digit character list; `none` otherwise. -/
def parseDigits? : List Char → Option Nat
  | [] => none
  | [c] => digitVal? c
  | c :: cs => do
    let d ← digitVal? c
    let rest ← parseDigits? cs
    some (d * 10 ^ cs.length + rest)

/-- Unsigned decimal numeral (digits, optionally with one decimal point and a
digit part on at least one side of it) as an exact rational. -/
def parseUnsigned? (cs : List Char) : Option ℚ :=
  match splitOnChar '.' cs with
  | [ip] => (parseDigits? ip).map fun i => mkRat i 1
  | [ip, fp] =>
    if ip = [] ∧ fp = [] then none
    else
      match (if ip = [] then some 0 else parseDigits? ip),
            (if fp = [] then some 0 else parseDigits? fp) with
      | some i, some f => some (mkRat (i * 10 ^ fp.length + f) (10 ^ fp.length))
      | _, _ => none
  | _ => none

/-- Modelled from the spec: Python built-in `float(s)` (external to the
repository), restricted to plain signed decimal numerals -- the coordinate
format the annotation records and all claims use. Exotic accepted forms of
CPython (exponents, infinities, surrounding whitespace) are outside every
claim's inputs and are not modelled. Returns `none` where `float` raises
`ValueError`. -/
def pyFloat? (s : String) : Option ℚ :=
  match s.toList with
  | '-' :: rest => (parseUnsigned? rest).map fun q => -q
  | '+' :: rest => parseUnsigned? rest
  | cs => parseUnsigned? cs

/-- Modelled from the spec: `np.ndarray.astype(int)` (external numpy) on one
float value: C-style conversion, truncation toward zero. `Int.tdiv` is exactly
T-division of the exact rational. -/
def truncTowardZero (q : ℚ) : ℤ :=
  q.num.tdiv q.den

/-- One entry of the comprehension at line 134 of the script:
`tuple(map(float, point.split(',')))`, for one `point` string, requiring
exactly one `x,y` pair (any other arity makes the downstream `np.array` /
`fillPoly` calls fail, so it is folded into the error case). The error value
is the offending text, as in the `ValueError` of `float`. -/
def parsePointPair (s : String) : Except String (ℚ × ℚ) :=
  match (pySplit s ',').map pyFloat? with
  | [some x, some y] => .ok (x, y)
  | _ => .error s

/-- The whole comprehension at lines 134-137: parse every `x;y`-separated
piece in order; the first piece `float` rejects raises, discarding the rest
(Python evaluates the comprehension left to right). -/
def parsePointList : List String → Except String (List (ℚ × ℚ))
  | [] => .ok []
  | s :: rest => do
    let p ← parsePointPair s
    let ps ← parsePointList rest
    .ok (p :: ps)

/-- Lines 134-138 of the script for one shape: split the `points` attribute at
each semicolon, parse every piece as a float pair, and convert the array to
integers (`astype(int)`, truncation toward zero). -/
def parseShapePoints (pointsAttr : String) : Except String (List (ℤ × ℤ)) :=
  (parsePointList (pySplit pointsAttr ';')).map
    (List.map fun p => (truncTowardZero p.1, truncTowardZero p.2))

instance {ε α : Type _} [DecidableEq ε] [DecidableEq α] : DecidableEq (Except ε α) :=
  fun a b => by
    cases a <;> cases b <;>
      first
        | exact isFalse fun h => Except.noConfusion h
        | rename_i x y
          exact if h : x = y then isTrue (by rw [h])
            else isFalse fun hc => by cases hc; exact h rfl

/-- One shape dictionary as built by `get_shapes` (tag name plus the XML
attributes), restricted to the two keys `create_overlay` reads: `label` and
`points`. A shape lacking either key would raise an uncaught `KeyError`; no
claim involves such shapes, so the embedding keeps them typed. -/
structure Shape where
  label : String
  points : String
deriving DecidableEq, Repr

/-- The loop at lines 133-142 of the script: parse each shape's points in
order (the first malformed shape raises, as `float` does), convert to integer
pixel coordinates, and append to the overlay list when the label differs from
the exact string Ignore, to the ignore list otherwise. The resulting pair is
`(overlay_points, ignore_points)`, each in input order. -/
def classifyShapes : List Shape → Except String (List (List (ℤ × ℤ)) × List (List (ℤ × ℤ)))
  | [] => .ok ([], [])
  | sh :: rest => do
    let pts ← parseShapePoints sh.points
    let (ov, ig) ← classifyShapes rest
    if sh.label ≠ "Ignore" then .ok (pts :: ov, ig) else .ok (ov, pts :: ig)

/-- Integer points of one shape, defaulting to `[]` on a parse error; used
only to state theorems about shapes that did parse. -/
def shapePoly (sh : Shape) : List (ℤ × ℤ) :=
  ((parseShapePoints sh.points).toOption).getD []

/-- Modelled from the spec: one crossing test of the standard even-odd
scan-conversion rule the spec prescribes for rasterization (the code calls the
external `cv.fillPoly`). The edge from `a` to `b` is crossed by the leftward
horizontal ray from `p` iff the edge spans the ray's height and the
ray's origin lies left of the edge's intersection with that height; the
comparison is the exact cross-multiplied form, so no division occurs. -/
def edgeCrosses (p a b : ℤ × ℤ) : Bool :=
  (decide (a.2 > p.2) != decide (b.2 > p.2)) &&
    (if a.2 < b.2 then (p.1 - a.1) * (b.2 - a.2) < (b.1 - a.1) * (p.2 - a.2)
     else (p.1 - a.1) * (b.2 - a.2) > (b.1 - a.1) * (p.2 - a.2))

/-- Edges of a closed polygon: consecutive vertex pairs, last joined to first
(the implicit closing edge of the data model). -/
def polygonEdges (poly : List (ℤ × ℤ)) : List ((ℤ × ℤ) × (ℤ × ℤ)) :=
  poly.zip (poly.rotate 1)

/-- Modelled from the spec: even-odd point-in-polygon test (a pixel is inside
iff the crossing number of its ray is odd). -/
def pointInPolygon (poly : List (ℤ × ℤ)) (p : ℤ × ℤ) : Bool :=
  (polygonEdges poly).foldl (fun inside e => inside != edgeCrosses p e.1 e.2) false

/-- Coverage by a polygon list: union semantics (a pixel covered by several
polygons of one `fillPoly` call is set once). -/
def coveredBy (polys : List (List (ℤ × ℤ))) (p : ℤ × ℤ) : Bool :=
  polys.any fun poly => pointInPolygon poly p

/-- Modelled from the spec: `cv.fillPoly(img, pts, color)` (external OpenCV),
as the spec describes it -- every in-bounds pixel covered by some polygon of
the list is set to the color, every other pixel keeps its value; out-of-bounds
polygon area is silently clipped. -/
def fillPoly (img : Canvas) (pts : List (List (ℤ × ℤ))) (color : Px) : Canvas :=
  { img with pix := fun x y =>
      if 0 ≤ x ∧ x < (img.width : ℤ) ∧ 0 ≤ y ∧ y < (img.height : ℤ) ∧ coveredBy pts (x, y)
      then color else img.pix x y }

/-- Channel-wise XOR of two pixels. -/
def pxXor (p q : Px) : Px :=
  ⟨p.c0 ^^^ q.c0, p.c1 ^^^ q.c1, p.c2 ^^^ q.c2⟩

/-- Modelled from the spec: `cv.bitwise_xor(src1, src2)` (external OpenCV):
per-pixel, per-channel bitwise XOR. -/
def bitwise_xor (src1 src2 : Canvas) : Canvas :=
  { src1 with pix := fun x y => pxXor (src1.pix x y) (src2.pix x y) }

/-- Rounding of the saturate-cast: nearest integer. The script only uses the
weights 0.0, 1.0, 0.0, under which the value is already integral, so the
tie-breaking convention never matters. -/
def cvRound (q : ℚ) : ℤ :=
  ⌊q + 1 / 2⌋

/-- Saturation to the uint8 range. -/
def satCastU8 (z : ℤ) : Nat :=
  (min 255 (max 0 z)).toNat

/-- Weighted sum of two channel values: `src1*alpha + src2*beta + gamma`,
rounded and saturated to uint8. -/
def wsum (a : Nat) (alpha : ℚ) (b : Nat) (beta gamma : ℚ) : Nat :=
  satCastU8 (cvRound (alpha * a + beta * b + gamma))

/-- Modelled from the spec: `cv.addWeighted(src1, alpha, src2, beta, gamma)`
(external OpenCV): per-channel weighted sum with saturation. -/
def addWeighted (src1 : Canvas) (alpha : ℚ) (src2 : Canvas) (beta gamma : ℚ) : Canvas :=
  { src1 with pix := fun x y =>
      ⟨wsum (src1.pix x y).c0 alpha (src2.pix x y).c0 beta gamma,
       wsum (src1.pix x y).c1 alpha (src2.pix x y).c1 beta gamma,
       wsum (src1.pix x y).c2 alpha (src2.pix x y).c2 beta gamma⟩ }

/-- Lines 151-163: `apply_mask`. `mask = overlay.astype(bool)` is an
element-wise (per-channel) boolean array; `background[mask] = cv.addWeighted(
background, 0.0, overlay, 1.0, 0.0)[mask]` overwrites exactly the channel
entries at which the overlay channel is non-zero with the corresponding
channel of the weighted image, leaving every other entry of the background
untouched. -/
def apply_mask (background overlay : Canvas) : Canvas :=
  let blended := addWeighted background 0 overlay 1 0
  { background with pix := fun x y =>
      ⟨if (overlay.pix x y).c0 ≠ 0 then (blended.pix x y).c0 else (background.pix x y).c0,
       if (overlay.pix x y).c1 ≠ 0 then (blended.pix x y).c1 else (background.pix x y).c1,
       if (overlay.pix x y).c2 ≠ 0 then (blended.pix x y).c2 else (background.pix x y).c2⟩ }

/-- Lines 116-148: `create_overlay`. Rasterize the non-Ignore shapes on one
zero canvas and the Ignore shapes on another, then combine the two canvases
with a bitwise XOR. The module-level `color` is passed explicitly. -/
def create_overlay (width height : Nat) (shapes : List Shape) (color : Px) :
    Except String Canvas := do
  let overlay := zeroCanvas width height
  let ignore := zeroCanvas width height
  let (overlay_points, ignore_points) ← classifyShapes shapes
  let overlay := fillPoly overlay overlay_points color
  let ignore := fillPoly ignore ignore_points color
  .ok (bitwise_xor overlay ignore)

/-- Lookup of an XML attribute (`ElementTree.Element.get`): first binding of
the key, if any. -/
def attrGet (attrs : List (String × String)) (key : String) : Option String :=
  (attrs.find? fun kv => kv.1 = key).map fun kv => kv.2

/-- In-place attribute update (`ElementTree.Element.set`): replace the value
at the first binding of the key keeping its position, or append a new binding. -/
def attrSet : List (String × String) → String → String → List (String × String)
  | [], key, v => [(key, v)]
  | kv :: rest, key, v =>
    if kv.1 = key then (key, v) :: rest else kv :: attrSet rest key v

/-- Modelled from the spec: `pathlib.Path(s).name` (standard library), the
final component of a path -- directory portion stripped. The model covers the
plain relative and absolute file paths annotation files store (it drops
trailing empty components, as pathlib's normalization does). -/
def pathName (s : String) : String :=
  String.mk ((((splitOnChar '/' s.toList).filter fun c => c ≠ []).getLastD []))

/-- One `<image>` XML element: its attributes in document order and its child
shape elements, the latter already in the dictionary form `get_shapes`
produces (tag plus attributes, restricted to the keys later code reads). -/
structure ImageTag where
  attrs : List (String × String)
  shapes : List Shape
deriving DecidableEq, Repr

/-- The parsed annotation source tree, reduced to what the script consults:
the `<image>` elements in document order (`root.iter` traverses the whole
tree in document order; no other element is read or written after
`get_color`). -/
structure XmlTree where
  images : List ImageTag
deriving DecidableEq, Repr

/-- Lines 76-91: `get_shapes` collects the child elements of an `<image>`
element as dictionaries; the embedding stores the children in that form
already. -/
def get_shapes (image_tag : ImageTag) : List Shape :=
  image_tag.shapes

/-- The per-image annotation dictionary built at lines 110-112: the image
element's attributes (after the name was stripped) plus its shapes. An absent
record is the empty dict `{}` of line 104, modelled as `none`; a found record
always carries the `shapes` key. -/
structure Annotation where
  attrs : List (String × String)
  shapes : List Shape
deriving DecidableEq, Repr

/-- The loop of `parse_annotation` over the remaining `<image>` elements,
returning the final value of the `annotation` variable together with the
elements as the loop leaves them. For each element whose stored name matches
the requested one after stripping the directory portion, the loop writes the
stripped name back into the element (`image_tag.set`, line 109) and overwrites
`annotation`, so a later match replaces an earlier one. -/
def parseAnnotationGo (image_name : String) :
    List ImageTag → Option Annotation × List ImageTag
  | [] => (none, [])
  | img :: rest =>
    let name := pathName ((attrGet img.attrs "name").getD "")
    if name = image_name then
      let img' : ImageTag := { img with attrs := attrSet img.attrs "name" name }
      let ann : Annotation := ⟨img'.attrs, get_shapes img'⟩
      let (annRest, rest') := parseAnnotationGo image_name rest
      (some (annRest.getD ann), img' :: rest')
    else
      let (annRest, rest') := parseAnnotationGo image_name rest
      (annRest, img :: rest')

/-- Lines 94-113: `parse_annotation`. Returns the record of the last matching
element (or `none`, the empty dict) and the tree as the traversal leaves it --
the tree is returned explicitly because line 109 mutates it. The model assumes
every `<image>` element carries a `name` attribute (its absence would raise an
uncaught `TypeError` inside `Path`; no claim involves such trees). -/
def parse_annotation (tree : XmlTree) (image_name : String) :
    Option Annotation × XmlTree :=
  let (ann, images') := parseAnnotationGo image_name tree.images
  (ann, ⟨images'⟩)

/-- One input image as the collaborator supplies it: its file name and its
pixel buffer (`cv.imread`). -/
structure ImageFile where
  name : String
  photo : Canvas

/-- The per-image body of the `__main__` loop (lines 181-197): look the image
up in the tree (which updates the tree), then for each of the two backgrounds
(zero canvas, copy of the photo) build the overlay and composite it. Reading
`annotation['shapes']` from the empty dict raises `KeyError`; any error of
`create_overlay` propagates. The writes to disk are the collaborator's side
and carry the two result canvases out. -/
def process_image (tree : XmlTree) (color : Px) (img : ImageFile) :
    Except String (Canvas × Canvas) × XmlTree :=
  let width := img.photo.width
  let height := img.photo.height
  let ( annotation, tree') := parse_annotation tree img.name
  match annotation with
  | none => (.error "KeyError: shapes", tree')
  | some ann =>
    let res : Except String (Canvas × Canvas) := do
      let overlay1 ← create_overlay width height ann.shapes color
      let result1 := apply_mask (zeroCanvas width height) overlay1
      let overlay2 ← create_overlay width height ann.shapes color
      let result2 := apply_mask img.photo overlay2
      .ok (result1, result2)
    (res, tree')

/-- The batch loop of `__main__` (lines 181-197): process the images in
order; an exception raised while processing one image is not caught anywhere
inside the loop, so it aborts the whole batch -- the outputs of the earlier
images remain, no later image is processed, and the error is the script's
exit. The result pairs each completed image's name with its two outputs; the
second component is the uncaught error, if any. -/
def process_batch (tree : XmlTree) (color : Px) :
    List ImageFile → List (String × Canvas × Canvas) × Option String
  | [] => ([], none)
  | img :: rest =>
    match process_image tree color img with
    | (.ok outs, tree') =>
      let (outs', err) := process_batch tree' color rest
      ((img.name, outs.1, outs.2) :: outs', err)
    | (.error e, _) => ([], some e)

/-- The stored name of an `<image>` element with the directory portion
stripped -- the value `parse_annotation` compares against the requested name. -/
def imageName (img : ImageTag) : String :=
  pathName ((attrGet img.attrs "name").getD "")

/-- An `<image>` element after the in-place write of line 109: its `name`
attribute replaced by the stripped name. -/
def strippedImage (img : ImageTag) : ImageTag :=
  { img with attrs := attrSet img.attrs "name" (imageName img) }

/-- The annotation record lines 110-112 build from a matching element. -/
def matchedAnnotation (img : ImageTag) : Annotation :=
  ⟨(strippedImage img).attrs, get_shapes (strippedImage img)⟩

/-- The mask color of the end-to-end scenario, MaskColor (0, 255, 0). -/
def green : Px := ⟨0, 255, 0⟩

/-- The end-to-end scenario's annotated rectangle: label Car, corner points
(10,10) (50,10) (50,50) (10,50). -/
def carShape : Shape := ⟨"Car", "10,10;50,10;50,50;10,50"⟩

/-- The integer polygon the car rectangle parses to. -/
def carPoly : List (ℤ × ℤ) := [(10, 10), (50, 10), (50, 50), (10, 50)]

/-- The annotation tree of the end-to-end scenario: one image, one shape. -/
def tree8 : XmlTree := ⟨[⟨[("name", "img.jpg")], [carShape]⟩]⟩

/-- Input image of the end-to-end scenario: 100 x 100, arbitrary photo. -/
def imgFile8 (photo : ℤ → ℤ → Px) : ImageFile :=
  ⟨"img.jpg", ⟨100, 100, photo⟩⟩

/-- A constant mid-gray photo buffer used as a concrete background. -/
def photo7 : ℤ → ℤ → Px := fun _ _ => ⟨7, 7, 7⟩

/-- The overlay canvas the scenario produces (the value `create_overlay`
returns on the scenario input, checked by definitional equality below). -/
def cv8 : Canvas :=
  bitwise_xor (fillPoly (zeroCanvas 100 100) [carPoly] green)
    (fillPoly (zeroCanvas 100 100) [] green)

/-- A 100 x 100 background canvas holding the gray photo. -/
def bg7 : Canvas := ⟨100, 100, photo7⟩

/-- A tree whose only image is named b.jpg (no record for a.jpg). -/
def treeB : XmlTree := ⟨[⟨[("name", "b.jpg")], []⟩]⟩

/-- An input image named a.jpg over the gray photo. -/
def imgA : ImageFile := ⟨"a.jpg", ⟨4, 4, photo7⟩⟩

/-- A shape whose points attribute float-parsing rejects. -/
def shapeBad : Shape := ⟨"Car", "abc"⟩

/-- A two-image tree: bad.jpg carries the malformed shape, good.jpg is clean. -/
def treeC3 : XmlTree :=
  ⟨[⟨[("name", "bad.jpg")], [shapeBad]⟩, ⟨[("name", "good.jpg")], []⟩]⟩

/-- The input image bad.jpg. -/
def imgBad : ImageFile := ⟨"bad.jpg", ⟨4, 4, photo7⟩⟩

/-- The input image good.jpg. -/
def imgGood : ImageFile := ⟨"good.jpg", ⟨4, 4, photo7⟩⟩

/-- A shape with only two points (a degenerate polygon). -/
def shape2pt : Shape := ⟨"Car", "10,10;50,10"⟩

/-- A tree whose image name carries a directory portion. -/
def treeC9 : XmlTree := ⟨[⟨[("name", "images/a.jpg")], []⟩]⟩

/-- The overlapping-squares record: a positive square and an Ignore square
covering its center. -/
def shapesC4 : List Shape :=
  [⟨"Car", "10,10;50,10;50,50;10,50"⟩, ⟨"Ignore", "20,20;40,20;40,40;20,40"⟩]

/-- The integer polygon of the Ignore square. -/
def sqPoly : List (ℤ × ℤ) := [(20, 20), (40, 20), (40, 40), (20, 40)]

/-- The canvas the overlapping-squares record rasterizes to. -/
def cvC4 : Canvas :=
  bitwise_xor (fillPoly (zeroCanvas 100 100) [carPoly] green)
    (fillPoly (zeroCanvas 100 100) [sqPoly] green)

theorem exceptBind_ok {α β : Type _} (a : α) (f : α → Except String β) :
    (Except.ok a >>= f) = f a := rfl

theorem exceptBind_error {α β : Type _} (e : String) (f : α → Except String β) :
    ((Except.error e : Except String α) >>= f) = Except.error e := rfl

theorem classifyShapes_ok_iff (shapes : List Shape) (ov ig : List (List (ℤ × ℤ)))
    (h : classifyShapes shapes = .ok (ov, ig)) :
    ov = (shapes.filter fun sh => sh.label ≠ "Ignore").map shapePoly ∧
    ig = (shapes.filter fun sh => sh.label = "Ignore").map shapePoly ∧
    ∀ sh ∈ shapes, ∃ pts, parseShapePoints sh.points = .ok pts := by
  induction shapes generalizing ov ig with
  | nil =>
    simp only [classifyShapes, Except.ok.injEq, Prod.mk.injEq] at h
    simp [← h.1, ← h.2]
  | cons sh rest ih =>
    simp only [classifyShapes] at h
    cases hp : parseShapePoints sh.points with
    | error e => rw [hp, exceptBind_error] at h; cases h
    | ok pts =>
      rw [hp, exceptBind_ok] at h
      cases hr : classifyShapes rest with
      | error e => rw [hr, exceptBind_error] at h; cases h
      | ok pr =>
        rw [hr, exceptBind_ok] at h
        obtain ⟨hov, hig, hall⟩ := ih pr.1 pr.2 (by rw [hr])
        have hsp : shapePoly sh = pts := by
          simp only [shapePoly, hp, Except.toOption, Option.getD_some]
        by_cases hl : sh.label = "Ignore"
        · simp only [hl, ne_eq, not_true_eq_false, if_false,
            Except.ok.injEq, Prod.mk.injEq, reduceIte] at h
          refine ⟨?_, ?_, ?_⟩
          · rw [← h.1, hov, List.filter_cons_of_neg (by simp [hl])]
          · rw [← h.2, hig, List.filter_cons_of_pos (by simp [hl]), List.map_cons, hsp]
          · intro s hs
            rcases List.mem_cons.mp hs with rfl | hs
            · exact ⟨pts, hp⟩
            · exact hall s hs
        · simp only [hl, ne_eq, not_false_eq_true, if_true,
            Except.ok.injEq, Prod.mk.injEq, reduceIte] at h
          refine ⟨?_, ?_, ?_⟩
          · rw [← h.1, hov, List.filter_cons_of_pos (by simp [hl]), List.map_cons, hsp]
          · rw [← h.2, hig, List.filter_cons_of_neg (by simp [hl])]
          · intro s hs
            rcases List.mem_cons.mp hs with rfl | hs
            · exact ⟨pts, hp⟩
            · exact hall s hs

theorem classifyShapes_error_of_mem (shapes : List Shape) (sh : Shape) (e : String)
    (hmem : sh ∈ shapes) (hbad : parseShapePoints sh.points = .error e) :
    ∃ e2, classifyShapes shapes = .error e2 := by
  induction shapes with
  | nil => cases hmem
  | cons a rest ih =>
    simp only [classifyShapes]
    cases hp : parseShapePoints a.points with
    | error e2 => exact ⟨e2, by rw [exceptBind_error]⟩
    | ok pts =>
      rcases List.mem_cons.mp hmem with rfl | hmem
      · rw [hp] at hbad; cases hbad
      · obtain ⟨e2, hrest⟩ := ih hmem
        exact ⟨e2, by rw [exceptBind_ok, hrest, exceptBind_error]⟩

theorem create_overlay_eq (width height : Nat) (shapes : List Shape) (color : Px) :
    create_overlay width height shapes color =
      (classifyShapes shapes).map fun pr =>
        bitwise_xor (fillPoly (zeroCanvas width height) pr.1 color)
          (fillPoly (zeroCanvas width height) pr.2 color) := by
  unfold create_overlay
  cases h : classifyShapes shapes with
  | error e => rfl
  | ok pr => cases pr; rfl

theorem pxXor_self (p : Px) : pxXor p p = ⟨0, 0, 0⟩ := by
  simp [pxXor]

theorem pxXor_zero (p : Px) : pxXor p ⟨0, 0, 0⟩ = p := by
  simp [pxXor]

theorem cvRound_natCast (b : Nat) : cvRound (b : ℚ) = b := by
  unfold cvRound
  rw [show ((b : ℚ) + 1 / 2 : ℚ) = 1 / 2 + ((b : ℤ) : ℚ) by push_cast; ring,
    Int.floor_add_int]
  norm_num

theorem wsum_zero_one (a b : Nat) (hb : b ≤ 255) : wsum a 0 b 1 0 = b := by
  unfold wsum
  rw [show ((0 : ℚ) * a + 1 * b + 0 : ℚ) = (b : ℚ) by ring, cvRound_natCast]
  unfold satCastU8
  omega

theorem addWeighted_zero_one_pix (bg ov : Canvas) (x y : ℤ)
    (h0 : (ov.pix x y).c0 ≤ 255) (h1 : (ov.pix x y).c1 ≤ 255)
    (h2 : (ov.pix x y).c2 ≤ 255) :
    (addWeighted bg 0 ov 1 0).pix x y = ov.pix x y := by
  show (⟨wsum (bg.pix x y).c0 0 (ov.pix x y).c0 1 0,
        wsum (bg.pix x y).c1 0 (ov.pix x y).c1 1 0,
        wsum (bg.pix x y).c2 0 (ov.pix x y).c2 1 0⟩ : Px) = ov.pix x y
  rw [wsum_zero_one _ _ h0, wsum_zero_one _ _ h1, wsum_zero_one _ _ h2]

theorem apply_mask_pix (bg ov : Canvas) (x y : ℤ)
    (h0 : (ov.pix x y).c0 ≤ 255) (h1 : (ov.pix x y).c1 ≤ 255)
    (h2 : (ov.pix x y).c2 ≤ 255) :
    (apply_mask bg ov).pix x y =
      ⟨if (ov.pix x y).c0 = 0 then (bg.pix x y).c0 else (ov.pix x y).c0,
       if (ov.pix x y).c1 = 0 then (bg.pix x y).c1 else (ov.pix x y).c1,
       if (ov.pix x y).c2 = 0 then (bg.pix x y).c2 else (ov.pix x y).c2⟩ := by
  show (⟨if (ov.pix x y).c0 ≠ 0 then ((addWeighted bg 0 ov 1 0).pix x y).c0 else (bg.pix x y).c0,
        if (ov.pix x y).c1 ≠ 0 then ((addWeighted bg 0 ov 1 0).pix x y).c1 else (bg.pix x y).c1,
        if (ov.pix x y).c2 ≠ 0 then ((addWeighted bg 0 ov 1 0).pix x y).c2 else (bg.pix x y).c2⟩ : Px) = _
  rw [addWeighted_zero_one_pix bg ov x y h0 h1 h2]
  simp only [ne_eq, ite_not]

theorem truncTowardZero_eq (q : ℚ) :
    truncTowardZero q = if 0 ≤ q then ⌊q⌋ else ⌈q⌉ := by
  unfold truncTowardZero
  by_cases h : 0 ≤ q
  · rw [if_pos h, Rat.floor_def]
    obtain ⟨n, hn⟩ := Int.eq_ofNat_of_zero_le (Rat.num_nonneg.mpr h)
    rw [hn]
    rfl
  · rw [if_neg h]
    have hq : q < 0 := lt_of_not_ge h
    have hnum : q.num < 0 := Rat.num_neg.mpr hq
    obtain ⟨m, hm⟩ := Int.eq_negSucc_of_lt_zero hnum
    have hceil : ⌈q⌉ = -⌊-q⌋ := by rw [Int.floor_neg, neg_neg]
    have hnegnum : (-q).num = -q.num := rfl
    have hnegden : (-q).den = q.den := rfl
    rw [hceil, Rat.floor_def, hnegnum, hnegden, hm]
    rfl

theorem rect_pip (x y : ℤ) :
    pointInPolygon [(10, 10), (50, 10), (50, 50), (10, 50)] (x, y) =
      (decide (10 ≤ x) && decide (x < 50) && decide (10 ≤ y) && decide (y < 50)) := by
  have hedges : polygonEdges [(10, 10), (50, 10), (50, 50), (10, 50)] =
      [((10, 10), (50, 10)), ((50, 10), (50, 50)),
       ((50, 50), (10, 50)), ((10, 50), (10, 10))] := rfl
  unfold pointInPolygon
  rw [hedges]
  simp only [List.foldl_cons, List.foldl_nil]
  unfold edgeCrosses
  norm_num
  have hA : (decide ((x - 50) * 40 < 0)) = (decide (x < 50)) := by
    simp only [decide_eq_decide]; omega
  have hB : (decide ((x - 10) * 40 < 0)) = (!(decide (10 ≤ x))) := by
    by_cases h : 10 ≤ x <;> simp [h] <;> omega
  have hC : (decide (y < 10)) = (!(decide (10 ≤ y))) := by
    by_cases h : 10 ≤ y <;> simp [h] <;> omega
  rw [hA, hB, hC]
  clear hA hB hC hedges
  by_cases h1 : 10 ≤ y <;> by_cases h2 : y < 50 <;>
    by_cases h3 : 10 ≤ x <;> by_cases h4 : x < 50 <;>
      first
        | (exfalso; omega)
        | simp [h1, h2, h3, h4]

theorem parseAnnotationGo_fst (n : String) (imgs : List ImageTag) :
    (parseAnnotationGo n imgs).1 =
      ((imgs.filter fun img => imageName img = n).getLast?).map matchedAnnotation := by
  induction imgs with
  | nil => rfl
  | cons img rest ih =>
    by_cases h : imageName img = n
    · have hstep : (parseAnnotationGo n (img :: rest)).1
          = some ((parseAnnotationGo n rest).1.getD ( matchedAnnotation img)) := by
        simp only [parseAnnotationGo]
        rw [show pathName ((attrGet img.attrs "name").getD "") = imageName img from rfl,
          if_pos h]
        rfl
      rw [hstep, ih, List.filter_cons_of_pos (by simp [h]), List.getLast?_cons]
      cases (rest.filter fun i => imageName i = n).getLast? with
      | none => rfl
      | some z => rfl
    · have hstep : (parseAnnotationGo n (img :: rest)).1 = (parseAnnotationGo n rest).1 := by
        simp only [parseAnnotationGo]
        rw [show pathName ((attrGet img.attrs "name").getD "") = imageName img from rfl,
          if_neg h]
      rw [hstep, ih, List.filter_cons_of_neg (by simp [h])]

theorem parseAnnotationGo_snd (n : String) (imgs : List ImageTag) :
    (parseAnnotationGo n imgs).2 =
      imgs.map fun img => if imageName img = n then strippedImage img else img := by
  induction imgs with
  | nil => rfl
  | cons img rest ih =>
    by_cases h : imageName img = n
    · have hstep : (parseAnnotationGo n (img :: rest)).2
          = strippedImage img :: (parseAnnotationGo n rest).2 := by
        simp only [parseAnnotationGo]
        rw [show pathName ((attrGet img.attrs "name").getD "") = imageName img from rfl,
          if_pos h]
        rfl
      rw [hstep, ih, List.map_cons, if_pos h]
    · have hstep : (parseAnnotationGo n (img :: rest)).2
          = img :: (parseAnnotationGo n rest).2 := by
        simp only [parseAnnotationGo]
        rw [show pathName ((attrGet img.attrs "name").getD "") = imageName img from rfl,
          if_neg h]
      rw [hstep, ih, List.map_cons, if_neg h]

theorem cv8_pix (x y : ℤ) (hx0 : 0 ≤ x) (hx1 : x < 100) (hy0 : 0 ≤ y) (hy1 : y < 100) :
    cv8.pix x y = if 10 ≤ x ∧ x < 50 ∧ 10 ≤ y ∧ y < 50 then green else ⟨0, 0, 0⟩ := by
  have h2 : (fillPoly (zeroCanvas 100 100) [] green).pix x y = ⟨0, 0, 0⟩ := by
    simp [fillPoly, coveredBy, zeroCanvas]
  have hcov : coveredBy [carPoly] (x, y) =
      (decide (10 ≤ x) && decide (x < 50) && decide (10 ≤ y) && decide (y < 50)) := by
    simp only [coveredBy, carPoly, List.any_cons, List.any_nil, Bool.or_false]
    exact rect_pip x y
  have h1 : (fillPoly (zeroCanvas 100 100) [carPoly] green).pix x y
      = if 10 ≤ x ∧ x < 50 ∧ 10 ≤ y ∧ y < 50 then green else ⟨0, 0, 0⟩ := by
    show (if 0 ≤ x ∧ x < ((100 : Nat) : ℤ) ∧ 0 ≤ y ∧ y < ((100 : Nat) : ℤ) ∧
        coveredBy [carPoly] (x, y) then green else (zeroCanvas 100 100).pix x y) = _
    rw [hcov]
    by_cases hb : 10 ≤ x ∧ x < 50 ∧ 10 ≤ y ∧ y < 50
    · rw [if_pos ⟨hx0, by exact_mod_cast hx1, hy0, by exact_mod_cast hy1,
        by simp [hb.1, hb.2.1, hb.2.2.1, hb.2.2.2]⟩, if_pos hb]
    · rw [if_neg, if_neg hb]
      · rfl
      · intro hcond
        have hc := hcond.2.2.2.2
        simp only [decide_eq_true_eq, Bool.and_eq_true] at hc
        exact hb ⟨hc.1.1.1, hc.1.1.2, hc.1.2, hc.2⟩
  show pxXor ((fillPoly (zeroCanvas 100 100) [carPoly] green).pix x y)
      ((fillPoly (zeroCanvas 100 100) [] green).pix x y) = _
  rw [h1, h2]
  by_cases hb : 10 ≤ x ∧ x < 50 ∧ 10 ≤ y ∧ y < 50
  · rw [if_pos hb, pxXor_zero]
  · rw [if_neg hb, pxXor_zero]

theorem coveredBy_of_mem (polys : List (List (ℤ × ℤ))) (poly : List (ℤ × ℤ))
    (p : ℤ × ℤ) (hmem : poly ∈ polys) (hpip : pointInPolygon poly p = true) :
    coveredBy polys p = true :=
  List.any_eq_true.mpr ⟨poly, hmem, hpip⟩

theorem fillPoly_zero_pix_covered (width height : Nat) (polys : List (List (ℤ × ℤ)))
    (color : Px) (x y : ℤ) (hx0 : 0 ≤ x) (hx1 : x < (width : ℤ))
    (hy0 : 0 ≤ y) (hy1 : y < (height : ℤ)) (hcov : coveredBy polys (x, y) = true) :
    (fillPoly (zeroCanvas width height) polys color).pix x y = color := by
  show (if 0 ≤ x ∧ x < ((width : Nat) : ℤ) ∧ 0 ≤ y ∧ y < ((height : Nat) : ℤ) ∧
      coveredBy polys (x, y) then color else (zeroCanvas width height).pix x y) = color
  rw [if_pos ⟨hx0, hx1, hy0, hy1, hcov⟩]

/-- C1 (amended): `composite(background, mask)` leaves every pixel where the
mask is zero byte-identical to the background; at a pixel where the mask is
non-zero it replaces exactly those channels at which the mask's channel value
is non-zero (the per-channel boolean mask of `astype(bool)`), keeping the
background's value at channels where the mask's channel is zero -- so the
pixel equals MaskColor in all three channels only when MaskColor has no zero
channel or the background is zero there. -/
theorem apply_mask_channelwise (bg ov : Canvas) (x y : ℤ)
    (h0 : (ov.pix x y).c0 ≤ 255) (h1 : (ov.pix x y).c1 ≤ 255)
    (h2 : (ov.pix x y).c2 ≤ 255) :
    ((apply_mask bg ov).pix x y =
      ⟨if (ov.pix x y).c0 = 0 then (bg.pix x y).c0 else (ov.pix x y).c0,
       if (ov.pix x y).c1 = 0 then (bg.pix x y).c1 else (ov.pix x y).c1,
       if (ov.pix x y).c2 = 0 then (bg.pix x y).c2 else (ov.pix x y).c2⟩) ∧
    (ov.pix x y = ⟨0, 0, 0⟩ → (apply_mask bg ov).pix x y = bg.pix x y) := by
  refine ⟨apply_mask_pix bg ov x y h0 h1 h2, fun hz => ?_⟩
  rw [apply_mask_pix bg ov x y h0 h1 h2, hz]
  rfl

/-- Witness for C1's theorem at the scenario mask over the gray photo. -/
theorem apply_mask_channelwise_witness :
    ((cv8.pix 10 10).c0 ≤ 255 ∧ (cv8.pix 10 10).c1 ≤ 255 ∧ (cv8.pix 10 10).c2 ≤ 255) ∧
    (((apply_mask bg7 cv8).pix 10 10 =
      ⟨if (cv8.pix 10 10).c0 = 0 then (bg7.pix 10 10).c0 else (cv8.pix 10 10).c0,
       if (cv8.pix 10 10).c1 = 0 then (bg7.pix 10 10).c1 else (cv8.pix 10 10).c1,
       if (cv8.pix 10 10).c2 = 0 then (bg7.pix 10 10).c2 else (cv8.pix 10 10).c2⟩) ∧
    (cv8.pix 10 10 = ⟨0, 0, 0⟩ → (apply_mask bg7 cv8).pix 10 10 = bg7.pix 10 10)) :=
  ⟨⟨by decide, by decide, by decide⟩,
    apply_mask_channelwise bg7 cv8 10 10 (by decide) (by decide) (by decide)⟩

/-- C1 (counterexample): on the gray photo background, the mask pixel at
(10,10) is MaskColor (0,255,0) and non-zero, yet the composited pixel is
(7,255,7), not MaskColor -- the zero channels of MaskColor keep the photo's
values, so the claim's hard replace to exactly MaskColor fails. -/
theorem apply_mask_not_maskcolor :
    create_overlay 100 100 [carShape] green = .ok cv8 ∧
    cv8.pix 10 10 = green ∧ green ≠ (⟨0, 0, 0⟩ : Px) ∧
    (apply_mask bg7 cv8).pix 10 10 = ⟨7, 255, 7⟩ ∧ (⟨7, 255, 7⟩ : Px) ≠ green := by
  refine ⟨rfl, by decide, by decide, ?_, by decide⟩
  rw [apply_mask_pix bg7 cv8 10 10 (by decide) (by decide) (by decide)]
  decide

/-- C2 (code_bug): an image with no matching annotation record makes
`parse_annotation` return the empty dict, and the main loop then reads
`annotation['shapes']`, raising an uncaught `KeyError` instead of producing
the all-zero mask and untouched photo the claim (and the spec) require. -/
theorem missing_annotation_keyerror :
    ( parse_annotation treeB "a.jpg").1 = none ∧
    (process_image treeB green imgA).1 = .error "KeyError: shapes" :=
  ⟨rfl, rfl⟩

/-- C3 (amended): an error raised while processing one image is not caught at
any per-image boundary: it propagates out of the loop, so the batch stops --
no output is produced for the failing image or for any later image; only the
generic final message is printed. Here: if the first image errors, the batch
result is empty with that error. -/
theorem batch_abort_on_error (tree : XmlTree) (color : Px) (img : ImageFile)
    (rest : List ImageFile) (e : String)
    (h : (process_image tree color img).1 = .error e) :
    process_batch tree color (img :: rest) = ([], some e) := by
  unfold process_batch
  cases hpi : process_image tree color img with
  | mk res t =>
    rw [hpi] at h
    cases res with
    | ok outs => cases h
    | error e2 => cases h; rfl

/-- Witness for C3's theorem on the two-image batch. -/
theorem batch_abort_on_error_witness :
    (process_image treeC3 green imgBad).1 = .error "abc" ∧
    process_batch treeC3 green [imgBad, imgGood] = ([], some "abc") :=
  ⟨rfl, batch_abort_on_error treeC3 green imgBad [imgGood] "abc" rfl⟩

/-- C3 (counterexample): with a batch of two images whose first has a
malformed shape, the claim demands that the error be caught, logged and the
second image processed; the code instead aborts: the batch result carries the
uncaught error and contains no output for good.jpg (nor any image). -/
theorem batch_abort_counterexample :
    (process_image treeC3 green imgBad).1 = .error "abc" ∧
    (process_batch treeC3 green [imgBad, imgGood]).1 = [] ∧
    (process_batch treeC3 green [imgBad, imgGood]).2 = some "abc" :=
  ⟨rfl, rfl, rfl⟩

/-- C4 (confirmed): in the mask `create_overlay` returns, any in-bounds pixel
that lies both in some non-Ignore shape's polygon and in some Ignore shape's
polygon is zero, whatever the order of the shapes in the record (the statement
quantifies over every shape list). -/
theorem ignore_overlap_pixel_zero (width height : Nat) (shapes : List Shape)
    (color : Px) (cv : Canvas)
    (hc : create_overlay width height shapes color = .ok cv)
    (x y : ℤ) (hx0 : 0 ≤ x) (hx1 : x < (width : ℤ))
    (hy0 : 0 ≤ y) (hy1 : y < (height : ℤ))
    (hpos : ∃ sh ∈ shapes, sh.label ≠ "Ignore" ∧
      pointInPolygon (shapePoly sh) (x, y) = true)
    (hign : ∃ sh ∈ shapes, sh.label = "Ignore" ∧
      pointInPolygon (shapePoly sh) (x, y) = true) :
    cv.pix x y = ⟨0, 0, 0⟩ := by
  rw [create_overlay_eq] at hc
  cases hcl : classifyShapes shapes with
  | error e => rw [hcl] at hc; cases hc
  | ok pr =>
    rw [hcl] at hc
    have hcv : bitwise_xor (fillPoly (zeroCanvas width height) pr.1 color)
        (fillPoly (zeroCanvas width height) pr.2 color) = cv :=
      Except.ok.inj hc
    obtain ⟨hov, hig, _⟩ := classifyShapes_ok_iff shapes pr.1 pr.2 (by rw [hcl])
    obtain ⟨shp, hpm, hpl, hpp⟩ := hpos
    obtain ⟨shi, him, hil, hip⟩ := hign
    have hcov1 : coveredBy pr.1 (x, y) = true := by
      rw [hov]
      exact coveredBy_of_mem _ _ _
        (List.mem_map_of_mem _ (List.mem_filter.mpr ⟨hpm, by simp [hpl]⟩)) hpp
    have hcov2 : coveredBy pr.2 (x, y) = true := by
      rw [hig]
      exact coveredBy_of_mem _ _ _
        (List.mem_map_of_mem _ (List.mem_filter.mpr ⟨him, by simp [hil]⟩)) hip
    rw [← hcv]
    show pxXor ((fillPoly (zeroCanvas width height) pr.1 color).pix x y)
      ((fillPoly (zeroCanvas width height) pr.2 color).pix x y) = _
    rw [fillPoly_zero_pix_covered width height pr.1 color x y hx0 hx1 hy0 hy1 hcov1,
      fillPoly_zero_pix_covered width height pr.2 color x y hx0 hx1 hy0 hy1 hcov2,
      pxXor_self]

/-- Witness for C4's theorem on the overlapping squares at pixel (25,25). -/
theorem ignore_overlap_pixel_zero_witness :
    (create_overlay 100 100 shapesC4 green = .ok cvC4 ∧
     (∃ sh ∈ shapesC4, sh.label ≠ "Ignore" ∧
       pointInPolygon (shapePoly sh) (25, 25) = true) ∧
     (∃ sh ∈ shapesC4, sh.label = "Ignore" ∧
       pointInPolygon (shapePoly sh) (25, 25) = true)) ∧
    cvC4.pix 25 25 = ⟨0, 0, 0⟩ :=
  ⟨⟨rfl, by decide, by decide⟩,
    ignore_overlap_pixel_zero 100 100 shapesC4 green cvC4 rfl 25 25
      (by decide) (by decide) (by decide) (by decide) (by decide) (by decide)⟩

/-- C5 (amended): a shape whose point string float-parsing rejects makes the
whole per-image `create_overlay` fail with a propagated error before any mask
exists (and by C3 the uncaught error then stops the batch); but a shape with
fewer than 3 points is NOT rejected: the two-point record is processed without
error, as a degenerate polygon. -/
theorem malformed_points_abort (width height : Nat) (shapes : List Shape)
    (color : Px) (sh : Shape) (e : String) (hmem : sh ∈ shapes)
    (hbad : parseShapePoints sh.points = .error e) :
    (∃ e2, create_overlay width height shapes color = .error e2) ∧
    (create_overlay 100 100 [shape2pt] color).isOk = true := by
  refine ⟨?_, rfl⟩
  obtain ⟨e2, hcl⟩ := classifyShapes_error_of_mem shapes sh e hmem hbad
  exact ⟨e2, by rw [create_overlay_eq, hcl]; rfl⟩

/-- Witness for C5's theorem on a record holding the malformed shape. -/
theorem malformed_points_abort_witness :
    (shapeBad ∈ [shape2pt, shapeBad] ∧
     parseShapePoints shapeBad.points = .error "abc") ∧
    ((∃ e2, create_overlay 100 100 [shape2pt, shapeBad] green = .error e2) ∧
     (create_overlay 100 100 [shape2pt] green).isOk = true) :=
  ⟨⟨by decide, rfl⟩,
    malformed_points_abort 100 100 [shape2pt, shapeBad] green shapeBad "abc"
      (by decide) rfl⟩

/-- C5 (counterexample): a record whose only shape has just two points is
accepted -- `create_overlay` returns a canvas, no MalformedShapeError-kind
failure is raised for the image. -/
theorem two_point_shape_accepted :
    parseShapePoints shape2pt.points = .ok [(10, 10), (50, 10)] ∧
    (create_overlay 100 100 [shape2pt] green).isOk = true :=
  ⟨rfl, rfl⟩

/-- C6 (confirmed): the Region Builder's partition: the ignore list holds
exactly the shapes whose label equals the string Ignore (exact match), the
overlay list all the others, each list in input order (the filters preserve
the record's order), with each shape contributing its parsed integer points. -/
theorem region_builder_partition (shapes : List Shape)
    (ov ig : List (List (ℤ × ℤ))) (h : classifyShapes shapes = .ok (ov, ig)) :
    ov = (shapes.filter fun sh => sh.label ≠ "Ignore").map shapePoly ∧
    ig = (shapes.filter fun sh => sh.label = "Ignore").map shapePoly := by
  obtain ⟨h1, h2, _⟩ := classifyShapes_ok_iff shapes ov ig h
  exact ⟨h1, h2⟩

/-- Witness for C6's theorem on the overlapping-squares record. -/
theorem region_builder_partition_witness :
    classifyShapes shapesC4 = .ok ([carPoly], [sqPoly]) ∧
    ([carPoly] = (shapesC4.filter fun sh => sh.label ≠ "Ignore").map shapePoly ∧
     [sqPoly] = (shapesC4.filter fun sh => sh.label = "Ignore").map shapePoly) :=
  ⟨rfl, region_builder_partition shapesC4 [carPoly] [sqPoly] rfl⟩

/-- C7 (confirmed): the float coordinates a shape's point string parses to are
converted to integer pixel coordinates by one function applied identically to
the x and the y of every point, and that function is truncation toward zero:
it floors nonnegative values and ceils negative ones. -/
theorem points_truncation (s : String) (qs : List (ℚ × ℚ))
    (h : parsePointList (pySplit s ';') = .ok qs) :
    parseShapePoints s =
      .ok (qs.map fun p => (truncTowardZero p.1, truncTowardZero p.2)) ∧
    ∀ q : ℚ, (0 ≤ q → truncTowardZero q = ⌊q⌋) ∧ (q < 0 → truncTowardZero q = ⌈q⌉) := by
  constructor
  · unfold parseShapePoints
    rw [h]
    rfl
  · intro q
    constructor
    · intro hq; rw [truncTowardZero_eq, if_pos hq]
    · intro hq; rw [truncTowardZero_eq, if_neg (not_le.mpr hq)]

/-- Witness for C7's theorem on the point string 2.5,-2.5;10,10. -/
theorem points_truncation_witness :
    parsePointList (pySplit "2.5,-2.5;10,10" ';') =
      .ok [(mkRat 5 2, -(mkRat 5 2)), (mkRat 10 1, mkRat 10 1)] ∧
    (parseShapePoints "2.5,-2.5;10,10" =
      .ok ([(mkRat 5 2, -(mkRat 5 2)), (mkRat 10 1, mkRat 10 1)].map
        fun p => (truncTowardZero p.1, truncTowardZero p.2)) ∧
    ∀ q : ℚ, (0 ≤ q → truncTowardZero q = ⌊q⌋) ∧ (q < 0 → truncTowardZero q = ⌈q⌉)) :=
  ⟨rfl, points_truncation "2.5,-2.5;10,10"
    [(mkRat 5 2, -(mkRat 5 2)), (mkRat 10 1, mkRat 10 1)] rfl⟩

/-- C8 (amended): on the 100 x 100 one-rectangle scenario with MaskColor
(0,255,0), the mask is exactly the 40 x 40 MaskColor block at offset (10,10)
and zero elsewhere; the black-background output equals the mask everywhere;
the photo-background output keeps the photo outside the block and, inside it,
sets the middle channel to 255 while keeping the photo's other two channels
(so it shows the block in exactly MaskColor only where those channels of the
photo are zero). -/
theorem end_to_end_car_scenario (photo : ℤ → ℤ → Px) (x y : ℤ)
    (hx0 : 0 ≤ x) (hx1 : x < 100) (hy0 : 0 ≤ y) (hy1 : y < 100) :
    (process_image tree8 green (imgFile8 photo)).1 =
      .ok (apply_mask (zeroCanvas 100 100) cv8, apply_mask ⟨100, 100, photo⟩ cv8) ∧
    cv8.pix x y = (if 10 ≤ x ∧ x < 50 ∧ 10 ≤ y ∧ y < 50 then green else ⟨0, 0, 0⟩) ∧
    (apply_mask (zeroCanvas 100 100) cv8).pix x y = cv8.pix x y ∧
    (apply_mask ⟨100, 100, photo⟩ cv8).pix x y =
      (if 10 ≤ x ∧ x < 50 ∧ 10 ≤ y ∧ y < 50
       then ⟨(photo x y).c0, 255, (photo x y).c2⟩ else photo x y) := by
  have hpx := cv8_pix x y hx0 hx1 hy0 hy1
  have h0 : (cv8.pix x y).c0 ≤ 255 := by rw [hpx]; split <;> decide
  have h1 : (cv8.pix x y).c1 ≤ 255 := by rw [hpx]; split <;> decide
  have h2 : (cv8.pix x y).c2 ≤ 255 := by rw [hpx]; split <;> decide
  refine ⟨rfl, hpx, ?_, ?_⟩
  · rw [apply_mask_pix (zeroCanvas 100 100) cv8 x y h0 h1 h2]
    have hid : ∀ n : Nat, (if n = 0 then 0 else n) = n := by
      intro n; split <;> omega
    show (⟨if (cv8.pix x y).c0 = 0 then 0 else (cv8.pix x y).c0,
          if (cv8.pix x y).c1 = 0 then 0 else (cv8.pix x y).c1,
          if (cv8.pix x y).c2 = 0 then 0 else (cv8.pix x y).c2⟩ : Px) = cv8.pix x y
    rw [hid, hid, hid]
  · rw [apply_mask_pix ⟨100, 100, photo⟩ cv8 x y h0 h1 h2, hpx]
    by_cases hb : 10 ≤ x ∧ x < 50 ∧ 10 ≤ y ∧ y < 50
    · rw [if_pos hb, if_pos hb]
      rfl
    · rw [if_neg hb, if_neg hb]
      rfl

/-- Witness for C8's theorem over the gray photo at pixel (25,25). -/
theorem end_to_end_car_scenario_witness :
    ((0 : ℤ) ≤ 25 ∧ (25 : ℤ) < 100) ∧
    ((process_image tree8 green (imgFile8 photo7)).1 =
      .ok (apply_mask (zeroCanvas 100 100) cv8, apply_mask ⟨100, 100, photo7⟩ cv8) ∧
    cv8.pix 25 25 = (if 10 ≤ (25:ℤ) ∧ (25:ℤ) < 50 ∧ 10 ≤ (25:ℤ) ∧ (25:ℤ) < 50
      then green else ⟨0, 0, 0⟩) ∧
    (apply_mask (zeroCanvas 100 100) cv8).pix 25 25 = cv8.pix 25 25 ∧
    (apply_mask ⟨100, 100, photo7⟩ cv8).pix 25 25 =
      (if 10 ≤ (25:ℤ) ∧ (25:ℤ) < 50 ∧ 10 ≤ (25:ℤ) ∧ (25:ℤ) < 50
       then ⟨(photo7 25 25).c0, 255, (photo7 25 25).c2⟩ else photo7 25 25)) :=
  ⟨⟨by decide, by decide⟩,
    end_to_end_car_scenario photo7 25 25 (by decide) (by decide) (by decide) (by decide)⟩

/-- C8 (counterexample): on the gray photo background the block pixel (10,10)
of the output is (7,255,7), not the claim's exact MaskColor (0,255,0). -/
theorem car_scenario_photo_leak :
    (process_image tree8 green (imgFile8 photo7)).1 =
      .ok (apply_mask (zeroCanvas 100 100) cv8, apply_mask bg7 cv8) ∧
    cv8.pix 10 10 = green ∧
    (apply_mask bg7 cv8).pix 10 10 = ⟨7, 255, 7⟩ ∧ (⟨7, 255, 7⟩ : Px) ≠ green := by
  refine ⟨rfl, by decide, ?_, by decide⟩
  rw [apply_mask_pix bg7 cv8 10 10 (by decide) (by decide) (by decide)]
  decide

/-- C9 (amended): `parse_annotation` is not read-only on the tree: it writes
the stripped basename back into every matching `<image>` element's name
attribute (and changes nothing else), so the tree stays byte-identical only
when every matching stored name is already directory-free; repeated lookups
are unaffected because matching strips the name again. -/
theorem parse_annotation_tree_effect (tree : XmlTree) (n : String) :
    ( parse_annotation tree n).2 =
      ⟨tree.images.map fun img =>
        if imageName img = n then strippedImage img else img⟩ ∧
    ((∀ img ∈ tree.images, imageName img = n → strippedImage img = img) →
      ( parse_annotation tree n).2 = tree) := by
  obtain ⟨imgs⟩ := tree
  constructor
  · show XmlTree.mk (parseAnnotationGo n imgs).2 = _
    rw [parseAnnotationGo_snd]
  · intro hfix
    show XmlTree.mk (parseAnnotationGo n imgs).2 = _
    rw [parseAnnotationGo_snd]
    congr 1
    calc imgs.map (fun img => if imageName img = n then strippedImage img else img)
        = imgs.map id := by
          apply List.map_congr_left
          intro img hmem
          by_cases h : imageName img = n
          · rw [if_pos h, hfix img hmem h]; rfl
          · rw [if_neg h]; rfl
      _ = imgs := List.map_id imgs

/-- Witness for C9's theorem on a tree whose stored names are already bare. -/
theorem parse_annotation_tree_effect_witness :
    ( parse_annotation treeB "a.jpg").2 =
      ⟨treeB.images.map fun img =>
        if imageName img = "a.jpg" then strippedImage img else img⟩ ∧
    (∀ img ∈ treeB.images, imageName img = "a.jpg" → strippedImage img = img) ∧
    ( parse_annotation treeB "a.jpg").2 = treeB :=
  ⟨( parse_annotation_tree_effect treeB "a.jpg").1, by decide,
    ( parse_annotation_tree_effect treeB "a.jpg").2 (by decide)⟩

/-- C9 (counterexample): looking a.jpg up in a tree whose element stores the
name images/a.jpg finds the record but leaves the tree different from the
input -- the name attribute was rewritten in place, so the tree is not
byte-identical after the per-image lookup. -/
theorem parse_annotation_mutates :
    ( parse_annotation treeC9 "a.jpg").1.isSome = true ∧
    ( parse_annotation treeC9 "a.jpg").2 ≠ treeC9 :=
  ⟨by decide, by decide⟩

/-- C10 (confirmed): the annotation record `parse_annotation` returns is the
one built (with stripped name) from the LAST element of the tree, in document
order, whose stored name matches the requested one after stripping the
directory portion -- later matches overwrite earlier ones; no match gives the
empty record. -/
theorem parse_annotation_last_match (tree : XmlTree) (n : String) :
    ( parse_annotation tree n).1 =
      ((tree.images.filter fun img => imageName img = n).getLast?).map
        matchedAnnotation := by
  show (parseAnnotationGo n tree.images).1 = _
  exact parseAnnotationGo_fst n tree.images

end Script5
